import Mathlib

/-!
# Verification of the music-player queue store and virtual-scroll window

Shallow embedding of the two core subsystems of the repository:

* `useQueue.ts` (solution): the playback-state machine
  `{currentSong, queue, originalQueue, isShuffled}` with operations
  `playSong`, `playNext`, `toggleShuffle`.
* `shuffle.ts`: the Fisher–Yates shuffle.  Randomness is modelled by a
  choice function `r : Nat → Nat` supplying the value
  `Math.floor(Math.random() * (i + 1))` used at loop index `i`.
* `useVirtualScroll.ts` (solution): the derived window
  `{startIndex, endIndex, offsetY, totalHeight}`.  JavaScript number
  semantics for the degenerate `itemHeight = 0` case (division by zero
  yielding `Infinity` / `NaN`) are captured by the type `JSNum`.
-/

namespace MusicPlayer

/-- A track record, as in `types.ts`: equality of tracks in the queue logic is
always by the `id` field (`s.id === song.id`). -/
structure Song where
  id : String
  title : String
  artist : String
  album : String
  albumArt : String
  duration : Nat
deriving DecidableEq, Repr

/-- The state owned by `useQueue`: `currentSong`, `queue`, `originalQueue`,
`isShuffled`. -/
structure QueueState where
  currentSong : Option Song
  queue : List Song
  originalQueue : List Song
  isShuffled : Bool
deriving DecidableEq, Repr

/-- The initial hook state: no current song, empty queues, shuffle off. -/
def initialState : QueueState :=
  { currentSong := none, queue := [], originalQueue := [], isShuffled := false }

/-- `playSong` from `useQueue.ts`:
`clickedIndex = sourceSongs.findIndex(s => s.id === song.id)` (`-1` when
absent), then `newQueue = sourceSongs.slice(clickedIndex + 1)`; sets
`currentSong = song`, `queue = originalQueue = newQueue`,
`isShuffled = false`. -/
def playSong (song : Song) (sourceSongs : List Song) (_s : QueueState) : QueueState :=
  let clickedIndex : Int :=
    match sourceSongs.findIdx? (fun s => s.id = song.id) with
    | some i => (i : Int)
    | none => -1
  let newQueue := sourceSongs.drop (clickedIndex + 1).toNat
  { currentSong := some song
    queue := newQueue
    originalQueue := newQueue
    isShuffled := false }

/-- `playNext` from `useQueue.ts`: prepends `song` to both `queue` and
`originalQueue`; `currentSong` and `isShuffled` are untouched. -/
def playNext (song : Song) (s : QueueState) : QueueState :=
  { s with queue := song :: s.queue, originalQueue := song :: s.originalQueue }

/-- The destructuring swap `[result[i], result[j]] = [result[j], result[i]]`
on an array, modelled on lists; out-of-bounds indices leave the list
unchanged (the shuffle loop only ever uses in-bounds indices). -/
def listSwap (l : List α) (i j : Nat) : List α :=
  match l.get? i, l.get? j with
  | some x, some y => (l.set i y).set j x
  | _, _ => l

/-- The loop of `shuffle.ts`, `for (let i = length - 1; i > 0; i--)`,
swapping index `i` with index `r i`; `r i` models
`Math.floor(Math.random() * (i + 1))`, a value in `[0, i]`. -/
def shuffleLoop (r : Nat → Nat) : Nat → List α → List α
  | 0, l => l
  | i + 1, l => shuffleLoop r i (listSwap l (i + 1) (r (i + 1)))

/-- `shuffle` from `shuffle.ts`: copies the input and runs the Fisher–Yates
walk from the last index down to `1`. -/
def shuffle (r : Nat → Nat) (l : List α) : List α :=
  shuffleLoop r (l.length - 1) l

/-- `toggleShuffle` from `useQueue.ts`: when shuffle is off, replace `queue`
by `shuffle(queue)` and set the flag (leaving `originalQueue` as it is);
when on, restore `queue` from `originalQueue` and clear the flag. -/
def toggleShuffle (r : Nat → Nat) (s : QueueState) : QueueState :=
  if s.isShuffled then
    { s with queue := s.originalQueue, isShuffled := false }
  else
    { s with queue := shuffle r s.queue, isShuffled := true }

/-- States reachable from the empty initial state through the three queue
operations; the shuffle step is quantified over every choice function, so
every run of `Math.random` is covered. -/
inductive Reachable : QueueState → Prop
  | init : Reachable initialState
  | play (song : Song) (source : List Song) {s : QueueState} :
      Reachable s → Reachable (playSong song source s)
  | next (song : Song) {s : QueueState} :
      Reachable s → Reachable (playNext song s)
  | shuf (r : Nat → Nat) {s : QueueState} :
      Reachable s → Reachable (toggleShuffle r s)

/-! ## Virtual scroll (`useVirtualScroll.ts`)

The derivation in the hook body is pure arithmetic over JavaScript numbers.
All inputs (`scrollTop`, `containerHeight`, `itemHeight`, `totalItems`,
`bufferCount`) are non-negative, so the only non-finite values that can
arise are `Infinity` and `NaN`, from a division by `itemHeight = 0`. -/

/-- A JavaScript number as it occurs in the window derivation: a finite
integer, positive infinity, or `NaN`. -/
inductive JSNum where
  | num (n : Int)
  | posinf
  | nan
deriving DecidableEq, Repr

namespace JSNum

/-- `Math.floor(a / b)` for non-negative integers: ordinary floor division
when `b ≠ 0`; JavaScript yields `Infinity` for `a > 0, b = 0` and `NaN` for
`0 / 0`. -/
def floorDiv (a b : Nat) : JSNum :=
  if b = 0 then (if a = 0 then nan else posinf) else num (a / b)

/-- `Math.ceil(a / b)` for non-negative integers: `(a + b - 1) / b` when
`b ≠ 0`; JavaScript yields `Infinity` for `a > 0, b = 0` and `NaN` for
`0 / 0`. -/
def ceilDiv (a b : Nat) : JSNum :=
  if b = 0 then (if a = 0 then nan else posinf) else num ((a + b - 1) / b)

/-- Addition; anything plus `NaN` is `NaN`, anything (non-`NaN`) plus
`Infinity` is `Infinity`. -/
def add : JSNum → JSNum → JSNum
  | nan, _ => nan
  | _, nan => nan
  | posinf, _ => posinf
  | _, posinf => posinf
  | num a, num b => num (a + b)

/-- Subtraction of a finite value; `Infinity - n = Infinity`,
`NaN - n = NaN`. -/
def subNat : JSNum → Nat → JSNum
  | nan, _ => nan
  | posinf, _ => posinf
  | num a, n => num (a - n)

/-- `Math.max` on two values; returns `NaN` if either argument is `NaN`. -/
def max : JSNum → JSNum → JSNum
  | nan, _ => nan
  | _, nan => nan
  | posinf, _ => posinf
  | _, posinf => posinf
  | num a, num b => num (Max.max a b)

/-- `Math.min` on two values; returns `NaN` if either argument is `NaN`. -/
def min : JSNum → JSNum → JSNum
  | nan, _ => nan
  | _, nan => nan
  | posinf, b => b
  | a, posinf => a
  | num a, num b => num (Min.min a b)

/-- `x <= y` as JavaScript evaluates it: any comparison with `NaN` is
false. -/
def le : JSNum → JSNum → Prop
  | nan, _ => False
  | _, nan => False
  | _, posinf => True
  | posinf, num _ => False
  | num a, num b => a ≤ b

instance : DecidablePred (fun p : JSNum × JSNum => le p.1 p.2) := by
  rintro ⟨a, b⟩
  cases a <;> cases b <;> simp [le] <;> infer_instance

end JSNum

/-- `visibleCount` from `useVirtualScroll.ts`:
`containerHeight > 0 ? Math.ceil(containerHeight / itemHeight) : 10`. -/
def visibleCount (containerHeight itemHeight : Nat) : JSNum :=
  if containerHeight > 0 then JSNum.ceilDiv containerHeight itemHeight
  else JSNum.num 10

/-- `startIndex` from `useVirtualScroll.ts`:
`Math.max(0, Math.floor(scrollTop / itemHeight) - bufferCount)`. -/
def startIndex (scrollTop itemHeight bufferCount : Nat) : JSNum :=
  JSNum.max (JSNum.num 0) ((JSNum.floorDiv scrollTop itemHeight).subNat bufferCount)

/-- `endIndex` from `useVirtualScroll.ts`:
`Math.min(totalItems - 1, Math.floor(scrollTop / itemHeight) + visibleCount + bufferCount)`. -/
def endIndex (scrollTop containerHeight itemHeight totalItems bufferCount : Nat) : JSNum :=
  JSNum.min (JSNum.num ((totalItems : Int) - 1))
    (((JSNum.floorDiv scrollTop itemHeight).add
        (visibleCount containerHeight itemHeight)).add (JSNum.num bufferCount))

/-- `totalHeight` from `useVirtualScroll.ts`: `totalItems * itemHeight`
(finite for all non-negative inputs). -/
def totalHeight (totalItems itemHeight : Nat) : Nat :=
  totalItems * itemHeight

/-- `offsetY` from `useVirtualScroll.ts`: `startIndex * itemHeight`. -/
def offsetY (scrollTop itemHeight bufferCount : Nat) : JSNum :=
  match startIndex scrollTop itemHeight bufferCount with
  | JSNum.num n => JSNum.num (n * itemHeight)
  | JSNum.posinf => if itemHeight = 0 then JSNum.nan else JSNum.posinf
  | JSNum.nan => JSNum.nan

/-! The same derivation specialised to `itemHeight ≠ 0`, where every value is
finite; bridge lemmas below prove it agrees with the `JSNum` version. -/

/-- `visibleCount` in the non-degenerate case `itemHeight ≠ 0` (as an
integer). -/
def visibleCountZ (containerHeight itemHeight : Nat) : Nat :=
  if containerHeight > 0 then (containerHeight + itemHeight - 1) / itemHeight
  else 10

/-- `startIndex` in the non-degenerate case `itemHeight ≠ 0`. -/
def startIndexZ (scrollTop itemHeight bufferCount : Nat) : Int :=
  Max.max 0 ((scrollTop / itemHeight : Nat) - (bufferCount : Int))

/-- `endIndex` in the non-degenerate case `itemHeight ≠ 0`. -/
def endIndexZ (scrollTop containerHeight itemHeight totalItems bufferCount : Nat) : Int :=
  Min.min ((totalItems : Int) - 1)
    ((scrollTop / itemHeight : Nat) + (visibleCountZ containerHeight itemHeight : Int) + bufferCount)

theorem startIndex_eq_z (scrollTop itemHeight bufferCount : Nat) (h : itemHeight ≠ 0) :
    startIndex scrollTop itemHeight bufferCount =
      JSNum.num (startIndexZ scrollTop itemHeight bufferCount) := by
  simp [startIndex, startIndexZ, JSNum.floorDiv, JSNum.subNat, JSNum.max, h]

theorem endIndex_eq_z (scrollTop containerHeight itemHeight totalItems bufferCount : Nat)
    (h : itemHeight ≠ 0) :
    endIndex scrollTop containerHeight itemHeight totalItems bufferCount =
      JSNum.num (endIndexZ scrollTop containerHeight itemHeight totalItems bufferCount) := by
  by_cases hch : containerHeight > 0 <;>
    simp [endIndex, endIndexZ, visibleCount, visibleCountZ, JSNum.floorDiv, JSNum.ceilDiv,
      JSNum.add, JSNum.min, h, hch]

/-! ## Permutation lemmas for the Fisher–Yates loop -/

theorem cons_perm_set (t : List α) (j : Nat) (a x : α) (h : t.get? j = some x) :
    List.Perm (a :: t) (x :: t.set j a) := by
  induction t generalizing j a with
  | nil => simp at h
  | cons b t' ih =>
    cases j with
    | zero =>
      simp only [List.get?] at h
      cases h
      exact List.Perm.swap x a t'
    | succ k =>
      simp only [List.get?] at h
      have h1 : List.Perm (a :: b :: t') (b :: a :: t') := List.Perm.swap b a t'
      have h2 : List.Perm (b :: a :: t') (b :: x :: t'.set k a) :=
        List.Perm.cons b (ih k a h)
      have h3 : List.Perm (b :: x :: t'.set k a) (x :: b :: t'.set k a) :=
        List.Perm.swap x b _
      exact (h1.trans h2).trans h3

theorem set_set_perm (l : List α) (i j : Nat) (x y : α)
    (hi : l.get? i = some x) (hj : l.get? j = some y) :
    List.Perm ((l.set i y).set j x) l := by
  induction l generalizing i j with
  | nil => simp at hi
  | cons a t ih =>
    cases i with
    | zero =>
      cases j with
      | zero =>
        simp only [List.get?] at hi hj
        cases hi; cases hj
        simp
      | succ k =>
        simp only [List.get?] at hi hj
        cases hi
        show List.Perm (y :: t.set k x) (x :: t)
        exact (cons_perm_set t k x y hj).symm
    | succ m =>
      cases j with
      | zero =>
        simp only [List.get?] at hi hj
        cases hj
        show List.Perm (x :: t.set m y) (y :: t)
        exact (cons_perm_set t m y x hi).symm
      | succ k =>
        simp only [List.get?] at hi hj
        show List.Perm (a :: (t.set m y).set k x) (a :: t)
        exact List.Perm.cons a (ih m k hi hj)

theorem listSwap_perm (l : List α) (i j : Nat) : List.Perm (listSwap l i j) l := by
  unfold listSwap
  cases hi : l.get? i with
  | none => simp
  | some x =>
    cases hj : l.get? j with
    | none => simp
    | some y => simpa using set_set_perm l i j x y hi hj

theorem shuffleLoop_perm (r : Nat → Nat) (i : Nat) (l : List α) :
    List.Perm (shuffleLoop r i l) l := by
  induction i generalizing l with
  | zero => exact List.Perm.refl l
  | succ k ih =>
    exact (ih (listSwap l (k + 1) (r (k + 1)))).trans (listSwap_perm l (k + 1) (r (k + 1)))

theorem shuffle_perm (r : Nat → Nat) (l : List α) : List.Perm (shuffle r l) l :=
  shuffleLoop_perm r (l.length - 1) l

theorem shuffle_short (r : Nat → Nat) (l : List α) (h : l.length ≤ 1) :
    shuffle r l = l := by
  have h0 : l.length - 1 = 0 := by omega
  rw [shuffle, h0]
  rfl

/-! ## Concrete tracks (mirroring the test fixtures) -/

/-- Fixture track with identifier `"1"`. -/
def songA : Song :=
  { id := "1", title := "Song A", artist := "Artist A", album := "Album A"
    albumArt := "art-a.jpg", duration := 180 }

/-- Fixture track with identifier `"2"`. -/
def songB : Song :=
  { id := "2", title := "Song B", artist := "Artist B", album := "Album B"
    albumArt := "art-b.jpg", duration := 200 }

/-- Fixture track with identifier `"3"`. -/
def songC : Song :=
  { id := "3", title := "Song C", artist := "Artist C", album := "Album C"
    albumArt := "art-c.jpg", duration := 220 }

/-! ## Lookup lemmas for `playSong` -/

theorem nodup_id_ne (l : List Song) (hnd : (l.map Song.id).Nodup)
    {i j : Nat} (hi : i < l.length) (hj : j < l.length) (hij : i ≠ j) :
    l[i].id ≠ l[j].id := by
  intro h
  have hi2 : i < (l.map Song.id).length := by simpa using hi
  have hj2 : j < (l.map Song.id).length := by simpa using hj
  have hmap : (l.map Song.id)[i] = (l.map Song.id)[j] := by
    simpa using h
  exact hij (hnd.getElem_inj_iff.mp hmap)

theorem findIdx?_id_of_nodup (l : List Song) (hnd : (l.map Song.id).Nodup)
    (i : Nat) (hi : i < l.length) :
    l.findIdx? (fun s => s.id = l[i].id) = some i := by
  rw [List.findIdx?_eq_some_iff_getElem]
  refine ⟨hi, by simp, ?_⟩
  intro j hji
  have hj : j < l.length := Nat.lt_trans hji hi
  have hne : l[j].id ≠ l[i].id := nodup_id_ne l hnd hj hi (Nat.ne_of_lt hji)
  simpa using hne

/-! ## Claims about the queue store -/

/-- C2: selecting the track at index `i` of a source sequence with distinct
identifiers sets `currentItem = S[i]`, `queue = originalQueue = S[i+1:]`, and
`shuffled = false`. -/
theorem playSong_at_index (source : List Song) (i : Nat) (hi : i < source.length)
    (s : QueueState) (hnd : (source.map Song.id).Nodup) :
    playSong source[i] source s =
      { currentSong := some source[i]
        queue := source.drop (i + 1)
        originalQueue := source.drop (i + 1)
        isShuffled := false } := by
  have htn : ((i : Int) + 1).toNat = i + 1 := by omega
  simp [playSong, findIdx?_id_of_nodup source hnd i hi, htn]

/-- C2 witness: selecting index 1 of `[A, B, C]` plays `B` with queue `[C]`. -/
theorem playSong_at_index_witness :
    1 < [songA, songB, songC].length ∧
    ([songA, songB, songC].map Song.id).Nodup ∧
    playSong songB [songA, songB, songC] initialState =
      { currentSong := some songB
        queue := [songC]
        originalQueue := [songC]
        isShuffled := false } := by
  refine ⟨by decide, by decide, ?_⟩
  exact playSong_at_index [songA, songB, songC] 1 (by decide) initialState (by decide)

/-- C1 counterexample: selecting a track whose identifier occurs nowhere in
the source leaves the WHOLE source as the queue, not the empty queue the
claim asserts (`findIndex` returns `-1` and `slice(-1 + 1)` is `slice(0)`). -/
theorem playSong_absent_counterexample :
    (∀ u ∈ [songB], u.id ≠ songA.id) ∧
    (playSong songA [songB] initialState).queue = [songB] ∧
    (playSong songA [songB] initialState).queue ≠ [] := by
  refine ⟨by decide, by decide, by decide⟩

/-- C1 amended: for a track absent from the source sequence, `selectAndPlay`
does not error: it sets `currentItem = t`, `shuffled = false`, and sets
`queue = originalQueue =` the ENTIRE source sequence. -/
theorem playSong_absent (t : Song) (S : List Song) (s : QueueState)
    (h : ∀ u ∈ S, u.id ≠ t.id) :
    playSong t S s =
      { currentSong := some t, queue := S, originalQueue := S, isShuffled := false } := by
  have hnone : S.findIdx? (fun u => u.id = t.id) = none := by
    rw [List.findIdx?_eq_none_iff]
    intro x hx
    simpa using h x hx
  simp [playSong, hnone]

/-- C1 amended witness: playing `songA`, absent from `[songB]`, yields
current item `songA` and queue `[songB]`. -/
theorem playSong_absent_witness :
    (∀ u ∈ [songB], u.id ≠ songA.id) ∧
    playSong songA [songB] initialState =
      { currentSong := some songA, queue := [songB], originalQueue := [songB]
        isShuffled := false } :=
  ⟨by decide, playSong_absent songA [songB] initialState (by decide)⟩

/-- C4: `playNext` prepends the track to both `queue` and `originalQueue`
(no deduplication), leaves `currentItem` and `shuffled` unchanged, and three
successive insertions put the last-inserted track at the front. -/
theorem playNext_spec (s : QueueState) (x x1 x2 x3 : Song) :
    (playNext x s).queue = x :: s.queue ∧
    (playNext x s).originalQueue = x :: s.originalQueue ∧
    (playNext x s).currentSong = s.currentSong ∧
    (playNext x s).isShuffled = s.isShuffled ∧
    (playNext x3 (playNext x2 (playNext x1 s))).queue = x3 :: x2 :: x1 :: s.queue ∧
    (playNext x3 (playNext x2 (playNext x1 s))).originalQueue =
      x3 :: x2 :: x1 :: s.originalQueue :=
  ⟨rfl, rfl, rfl, rfl, rfl, rfl⟩

/-- C9: `shuffle` returns a permutation of its input (same elements with the
same multiplicities) for every choice of random values, and on empty or
single-element inputs it returns the input unchanged. -/
theorem shuffle_spec {α : Type} (r : Nat → Nat) (l : List α) :
    List.Perm (shuffle r l) l ∧ (l.length ≤ 1 → shuffle r l = l) :=
  ⟨shuffle_perm r l, shuffle_short r l⟩

/-- C9 witness: instantiation on a three-element list and a concrete choice
function, and on a singleton. -/
theorem shuffle_spec_witness :
    (List.Perm (shuffle (fun _ => 0) [songA, songB, songC]) [songA, songB, songC] ∧
      ([songA, songB, songC].length ≤ 1 →
        shuffle (fun _ => 0) [songA, songB, songC] = [songA, songB, songC])) ∧
    shuffle (fun _ => 0) [songA] = [songA] := by
  refine ⟨shuffle_spec (fun _ => 0) [songA, songB, songC], ?_⟩
  exact (shuffle_spec (fun _ => 0) [songA]).2 (by decide)

/-! ## Field lemmas for `toggleShuffle` -/

theorem toggleShuffle_currentSong (r : Nat → Nat) (s : QueueState) :
    (toggleShuffle r s).currentSong = s.currentSong := by
  unfold toggleShuffle
  split <;> rfl

theorem toggleShuffle_originalQueue (r : Nat → Nat) (s : QueueState) :
    (toggleShuffle r s).originalQueue = s.originalQueue := by
  unfold toggleShuffle
  split <;> rfl

theorem toggleShuffle_queue_mem {r : Nat → Nat} {s : QueueState} {u : Song}
    (h : u ∈ (toggleShuffle r s).queue) : u ∈ s.queue ∨ u ∈ s.originalQueue := by
  unfold toggleShuffle at h
  split at h
  · exact Or.inr h
  · exact Or.inl ((shuffle_perm _ s.queue).mem_iff.mp h)

/-- In every reachable state with shuffle off, `queue` and `originalQueue`
coincide: every non-shuffle mutation keeps them in sync. -/
theorem reachable_sync {s : QueueState} (h : Reachable s) :
    s.isShuffled = false → s.queue = s.originalQueue := by
  induction h with
  | init => intro _; rfl
  | play song source _ _ => intro _; rfl
  | next song _ ih =>
    intro hf
    have hq := ih hf
    simp [playNext, hq]
  | shuf r _ _ =>
    intro hf
    unfold toggleShuffle at hf ⊢
    split at hf
    · rename_i hc
      rw [if_pos hc]
    · exact Bool.noConfusion hf

/-- C3: from any reachable state with shuffle off, toggling shuffle twice
restores `queue` exactly; the first toggle leaves `originalQueue` untouched
and the second copies it back verbatim, clearing the flag. -/
theorem toggle_toggle_restores {s : QueueState} (h : Reachable s)
    (hf : s.isShuffled = false) (r r2 : Nat → Nat) :
    (toggleShuffle r2 (toggleShuffle r s)).queue = s.queue ∧
    (toggleShuffle r s).originalQueue = s.originalQueue ∧
    (toggleShuffle r2 (toggleShuffle r s)).isShuffled = false ∧
    toggleShuffle r2 (toggleShuffle r s) = s := by
  have hsync := reachable_sync h hf
  have h1 : toggleShuffle r s = { s with queue := shuffle r s.queue, isShuffled := true } := by
    unfold toggleShuffle
    rw [if_neg (by simp [hf])]
  have h2 : toggleShuffle r2 (toggleShuffle r s) =
      { s with queue := s.originalQueue, isShuffled := false } := by
    rw [h1]
    rfl
  refine ⟨?_, ?_, ?_, ?_⟩
  · rw [h2]
    exact hsync.symm
  · rw [h1]
  · rw [h2]
  · rw [h2]
    nth_rewrite 1 [← hsync]
    rw [← hf]

/-- C3 witness: after selecting `songA` from `[A, B]` (queue `[B]`,
non-empty, shuffle off), a double toggle with concrete random choices
restores the state. -/
theorem toggle_toggle_restores_witness :
    (playSong songA [songA, songB] initialState).isShuffled = false ∧
    (toggleShuffle (fun _ => 0) (toggleShuffle (fun _ => 0)
        (playSong songA [songA, songB] initialState))).queue =
      (playSong songA [songA, songB] initialState).queue :=
  ⟨rfl, (toggle_toggle_restores
    (Reachable.play songA [songA, songB] Reachable.init) rfl
    (fun _ => 0) (fun _ => 0)).1⟩

/-! ## The `currentItem ∉ queue` invariant (C5) -/

theorem playSong_queue_id_ne (song : Song) (source : List Song) (s : QueueState)
    (hnd : (source.map Song.id).Nodup) :
    ∀ u ∈ (playSong song source s).queue, u.id ≠ song.id := by
  intro u hu
  unfold playSong at hu
  cases hidx : source.findIdx? (fun t => t.id = song.id) with
  | none =>
    simp only [hidx] at hu
    have hall := List.findIdx?_eq_none_iff.mp hidx u (by simpa using hu)
    simpa using hall
  | some i =>
    simp only [hidx] at hu
    have htn : ((i : Int) + 1).toNat = i + 1 := by omega
    rw [htn] at hu
    obtain ⟨hi, hpi, -⟩ := List.findIdx?_eq_some_iff_getElem.mp hidx
    have hsi : source[i].id = song.id := by simpa using hpi
    rw [List.mem_iff_getElem] at hu
    obtain ⟨j, hj, hju⟩ := hu
    rw [List.getElem_drop] at hju
    have hlen : i + 1 + j < source.length := by
      rw [List.length_drop] at hj
      omega
    intro hid
    have hne : source[i + 1 + j].id ≠ source[i].id :=
      nodup_id_ne source hnd hlen hi (by omega)
    apply hne
    rw [hju, hid, hsi]

/-- Reachability restricted as the amended C5 requires: `playSong` sources
have pairwise-distinct identifiers and `playNext` never inserts a track
carrying the identifier of the current one. -/
inductive SafeReachable : QueueState → Prop
  | init : SafeReachable initialState
  | play (song : Song) (source : List Song) {s : QueueState} :
      (source.map Song.id).Nodup → SafeReachable s →
      SafeReachable (playSong song source s)
  | next (song : Song) {s : QueueState} :
      (∀ t, s.currentSong = some t → song.id ≠ t.id) →
      SafeReachable s → SafeReachable (playNext song s)
  | shuf (r : Nat → Nat) {s : QueueState} :
      SafeReachable s → SafeReachable (toggleShuffle r s)

theorem safe_current_notin_queues {s : QueueState} (h : SafeReachable s) :
    ∀ t, s.currentSong = some t →
      (∀ u ∈ s.queue, u.id ≠ t.id) ∧ (∀ u ∈ s.originalQueue, u.id ≠ t.id) := by
  induction h with
  | init => intro t ht; cases ht
  | @play song source s1 hnd _ _ =>
    intro t ht
    have hts : t = song := by
      have h2 : some song = some t := ht
      exact (Option.some_inj.mp h2).symm
    subst hts
    exact ⟨fun u hu => playSong_queue_id_ne t source s1 hnd u hu,
      fun u hu => playSong_queue_id_ne t source s1 hnd u hu⟩
  | next song hguard _ ih =>
    intro t ht
    have hcur : _ = some t := ht
    obtain ⟨h1, h2⟩ := ih t hcur
    have hne : song.id ≠ t.id := hguard t hcur
    constructor
    · intro u hu
      rcases List.mem_cons.mp hu with rfl | hu2
      · exact hne
      · exact h1 u hu2
    · intro u hu
      rcases List.mem_cons.mp hu with rfl | hu2
      · exact hne
      · exact h2 u hu2
  | shuf r _ ih =>
    intro t ht
    rw [toggleShuffle_currentSong] at ht
    obtain ⟨h1, h2⟩ := ih t ht
    constructor
    · intro u hu
      rcases toggleShuffle_queue_mem hu with hq | ho
      · exact h1 u hq
      · exact h2 u ho
    · intro u hu
      rw [toggleShuffle_originalQueue] at hu
      exact h2 u hu

/-- C5 counterexample: the trace `playSong(A, [A]); playNext(A)` is reachable
and leaves `currentItem = A` with `A` itself in the queue, so the invariant
fails on unrestricted reachable states. -/
theorem current_in_queue_counterexample :
    Reachable (playNext songA (playSong songA [songA] initialState)) ∧
    (playNext songA (playSong songA [songA] initialState)).currentSong = some songA ∧
    songA ∈ (playNext songA (playSong songA [songA] initialState)).queue :=
  ⟨Reachable.next songA (Reachable.play songA [songA] Reachable.init),
    by decide, by decide⟩

/-- C5 amended: in every state reachable when `playSong` sources carry
pairwise-distinct identifiers and `playNext` never inserts a track with the
current item's identifier, no member of `queue` shares the current item's
identifier. -/
theorem safe_current_notin_queue {s : QueueState} (h : SafeReachable s)
    {t : Song} (ht : s.currentSong = some t) :
    ∀ u ∈ s.queue, u.id ≠ t.id :=
  (safe_current_notin_queues h t ht).1

/-- C5 amended witness: after `playSong(A, [A]); playNext(B)` the queue is
`[B]`, and the queue member `songB` does not carry the current identifier
`"1"`. -/
theorem safe_current_notin_queue_witness :
    songB.id ≠ songA.id :=
  safe_current_notin_queue
    (SafeReachable.next songB
      (fun t ht => by
        simp only [playSong] at ht
        cases ht
        decide)
      (SafeReachable.play songA [songA] (by decide) SafeReachable.init))
    rfl songB (by decide)

/-! ## Claims about the virtual-scroll window -/

/-- The height-measurement effect in `useVirtualScroll.ts`: a measured
`clientHeight` is recorded into `containerHeight` only when strictly
positive; otherwise the previous value is kept. -/
def updateHeight (height containerHeight : Nat) : Nat :=
  if height > 0 then height else containerHeight

/-- C6 counterexample: at `scrollTop = 100`, `containerHeight = 100`,
`itemHeight = 10`, `totalItems = 100000`, `bufferCount = 5` the window is
`[5, 25]`, i.e. 21 rows, but `visibleCount + 2*bufferSize = 20`: the claimed
bound is off by one. -/
theorem window_size_counterexample :
    startIndex 100 10 5 = JSNum.num 5 ∧
    endIndex 100 100 10 100000 5 = JSNum.num 25 ∧
    visibleCount 100 10 = JSNum.num 10 ∧
    ¬((25 : Int) - 5 + 1 ≤ 10 + 2 * 5) := by
  refine ⟨by decide, by decide, by decide, by decide⟩

/-- C6 amended: for positive `itemSize` the rendered window never exceeds
`visibleCount + 2*bufferSize + 1` rows, independently of `itemCount`. -/
theorem window_size_bound (st ch ih total buf : Nat) (_hih : 0 < ih) :
    endIndexZ st ch ih total buf - startIndexZ st ih buf + 1 ≤
      (visibleCountZ ch ih : Int) + 2 * buf + 1 := by
  have h1 : ((st / ih : Nat) : Int) - buf ≤ startIndexZ st ih buf :=
    le_max_right _ _
  have h2 : endIndexZ st ch ih total buf ≤
      ((st / ih : Nat) : Int) + (visibleCountZ ch ih : Int) + buf :=
    min_le_right _ _
  omega

/-- C6 amended witness: instantiation at the counterexample's inputs where
the window has exactly `visibleCount + 2*bufferSize + 1` rows. -/
theorem window_size_bound_witness :
    0 < 10 ∧
    endIndexZ 100 100 10 100000 5 - startIndexZ 100 10 5 + 1 ≤
      (visibleCountZ 100 10 : Int) + 2 * 5 + 1 :=
  ⟨by decide, window_size_bound 100 100 10 100000 5 (by decide)⟩

/-- C7 counterexample: with 10 items of height 10 but `scrollTop = 1000`
(far past the content), `startIndex = 95 > 9 = endIndex`, refuting
`startIndex <= endIndex` for arbitrary `scrollOffset`. -/
theorem range_invariant_counterexample :
    0 < (10 : Nat) ∧
    startIndex 1000 10 5 = JSNum.num 95 ∧
    endIndex 1000 100 10 10 5 = JSNum.num 9 ∧
    ¬((95 : Int) ≤ 9) := by
  refine ⟨by decide, by decide, by decide, by decide⟩

/-- C7 amended: for positive `itemSize` and a scroll offset within the
content (`scrollOffset < itemCount * itemSize`; offset 0 when the list is
empty), both ends clamp to `[0, itemCount - 1]`: `startIndex ≥ 0`,
`endIndex ≤ itemCount - 1`, `startIndex ≤ endIndex` when `itemCount > 0`,
and `endIndex = startIndex - 1` when `itemCount = 0`. -/
theorem range_invariant (st ch ih total buf : Nat) (hih : 0 < ih)
    (hst : st < total * ih ∨ (total = 0 ∧ st = 0)) :
    0 ≤ startIndexZ st ih buf ∧
    endIndexZ st ch ih total buf ≤ (total : Int) - 1 ∧
    (0 < total → startIndexZ st ih buf ≤ endIndexZ st ch ih total buf) ∧
    (total = 0 → endIndexZ st ch ih total buf = startIndexZ st ih buf - 1) := by
  refine ⟨le_max_left _ _, min_le_left _ _, ?_, ?_⟩
  · intro htotal
    have hlt : st < total * ih := by
      rcases hst with h | ⟨h0, _⟩
      · exact h
      · omega
    have hf : st / ih < total := (Nat.div_lt_iff_lt_mul hih).mpr (by omega)
    have hfz : ((st / ih : Nat) : Int) ≤ (total : Int) - 1 := by
      omega
    refine max_le (le_min (by omega) (by positivity)) (le_min (by omega) (by omega))
  · intro htotal
    rcases hst with h | ⟨-, hst0⟩
    · subst htotal
      simp at h
    · subst hst0
      subst htotal
      unfold endIndexZ startIndexZ
      rw [Nat.zero_div]
      rw [min_eq_left (by push_cast; omega), max_eq_left (by push_cast; omega)]
      norm_num

/-- C7 amended witness: `scrollTop = 95` within 10 items of height 10 gives
a clamped, non-empty range. -/
theorem range_invariant_witness :
    0 < (10 : Nat) ∧ (95 : Nat) < 10 * 10 ∧
    (0 ≤ startIndexZ 95 10 5 ∧
      endIndexZ 95 100 10 10 5 ≤ (10 : Int) - 1 ∧
      (0 < (10 : Nat) → startIndexZ 95 10 5 ≤ endIndexZ 95 100 10 10 5) ∧
      ((10 : Nat) = 0 → endIndexZ 95 100 10 10 5 = startIndexZ 95 10 5 - 1)) :=
  ⟨by decide, by decide,
    range_invariant 95 100 10 10 5 (by decide) (Or.inl (by decide))⟩

/-- C8: with `itemSize = 0` the total extent is `0` and no index at all lies
between `startIndex` and `endIndex` under JavaScript comparison semantics
(the division by zero yields `Infinity`, or `NaN` at offset 0, so the range
contains nothing and callers render nothing); no error is raised anywhere,
the derivation being total. -/
theorem zero_item_size (st ch total buf : Nat) :
    totalHeight total 0 = 0 ∧
    ∀ i : Int, ¬(JSNum.le (startIndex st 0 buf) (JSNum.num i) ∧
      JSNum.le (JSNum.num i) (endIndex st ch 0 total buf)) := by
  refine ⟨by simp [totalHeight], ?_⟩
  rintro i ⟨hle1, -⟩
  rcases st with _ | k <;>
    simp [startIndex, JSNum.floorDiv, JSNum.subNat, JSNum.max, JSNum.le] at hle1

/-- C8 witness: concrete instantiation at `scrollTop 7`, 5 items. -/
theorem zero_item_size_witness :
    totalHeight 5 0 = 0 ∧
    ¬(JSNum.le (startIndex 7 0 5) (JSNum.num 0) ∧
      JSNum.le (JSNum.num 0) (endIndex 7 3 0 5 5)) :=
  ⟨(zero_item_size 7 3 5 5).1, (zero_item_size 7 3 5 5).2 0⟩

/-- C10: before any positive height measurement (`containerHeight = 0`),
`visibleCount` falls back to the constant 10, so at scroll offset 0 the
window is `[0, min(itemCount - 1, 10 + bufferCount)]` — non-empty whenever
items exist; and a measurement is recorded only when strictly positive. -/
theorem fallback_window (ih total buf : Nat) (_hih : 0 < ih) :
    visibleCount 0 ih = JSNum.num 10 ∧
    startIndexZ 0 ih buf = 0 ∧
    endIndexZ 0 0 ih total buf = Min.min ((total : Int) - 1) (10 + buf) ∧
    (0 < total → startIndexZ 0 ih buf ≤ endIndexZ 0 0 ih total buf) ∧
    (∀ m ch, 0 < m → updateHeight m ch = m) ∧
    (∀ ch, updateHeight 0 ch = ch) := by
  have hs : startIndexZ 0 ih buf = 0 := by
    unfold startIndexZ
    rw [Nat.zero_div]
    rw [max_eq_left (by push_cast; omega)]
  have he : endIndexZ 0 0 ih total buf = Min.min ((total : Int) - 1) (10 + buf) := by
    unfold endIndexZ visibleCountZ
    rw [Nat.zero_div]
    norm_num
  refine ⟨by simp [visibleCount], hs, he, ?_, ?_, ?_⟩
  · intro htotal
    rw [hs, he]
    refine le_min (by omega) (by positivity)
  · intro m ch hm
    simp [updateHeight, hm]
  · intro ch
    simp [updateHeight]

/-- C10 witness: `itemHeight = 50`, 100 items, buffer 5: the initial window
is `[0, 15]`. -/
theorem fallback_window_witness :
    0 < (50 : Nat) ∧
    (visibleCount 0 50 = JSNum.num 10 ∧
      startIndexZ 0 50 5 = 0 ∧
      endIndexZ 0 0 50 100 5 = Min.min ((100 : Int) - 1) (10 + 5) ∧
      (0 < (100 : Nat) → startIndexZ 0 50 5 ≤ endIndexZ 0 0 50 100 5) ∧
      (∀ m ch, 0 < m → updateHeight m ch = m) ∧
      (∀ ch, updateHeight 0 ch = ch)) :=
  ⟨by decide, fallback_window 50 100 5 (by decide)⟩

end MusicPlayer
